import Mathlib

/-!
Verification of the action-encoding and authentication pipeline of the
nos-ts-alpha client library: scaled-integer conversion, 128-bit wide split,
length-delimited framing, action builders, signing schemes, nonce counter
and receipt validation, embedded shallowly from the TypeScript sources
(`src/utils.ts`, `src/nord/actions.ts`, `src/nord/NordUser` and
`src/types.ts`).
-/

deriving instance DecidableEq for Except

namespace Nord

/-! ### Scaled integer codec (`src/utils.ts`, `makeToScaledBigUint`) -/

/-- Error cases raised by `makeToScaledBigUint` in `src/utils.ts`. -/
inductive ScaledError
  | negative
  | precisionLoss
  | outOfRange
deriving DecidableEq

/-- Truncation toward zero on rationals, the semantics of
decimal.js `Decimal.truncated()`. -/
def ratTrunc (q : ℚ) : ℤ :=
  if q < 0 then -⌊-q⌋ else ⌊q⌋

/-- Shallow embedding of `makeToScaledBigUint` from `src/utils.ts`
(lines 116-157).  The decimal.js backend is an external dependency; it is
embedded as exact rational arithmetic, which the source configures it to
realise (working precision chosen so that no double rounding occurs).
Source order: the zero short-circuit, then the negativity check, then
`Ten.pow(decimals).mul(dec).truncated()`, the precision-loss check, and
the range check against `2^bits - 1`. -/
def makeToScaledBigUint (bits : ℕ) (x : ℚ) (decimals : ℕ) :
    Except ScaledError ℤ :=
  if x = 0 then .ok 0
  else if x < 0 then .error .negative
  else
    let scaled := ratTrunc ((10 : ℚ) ^ decimals * x)
    if scaled = 0 then .error .precisionLoss
    else if (2 : ℤ) ^ bits - 1 < scaled then .error .outOfRange
    else .ok scaled

/-- `toScaledU64` from `src/utils.ts` (lines 169-173): 64-bit instance. -/
def toScaledU64 (x : ℚ) (decimals : ℕ) : Except ScaledError ℤ :=
  makeToScaledBigUint 64 x decimals

/-- `toScaledU128` from `src/utils.ts` (lines 185-189): 128-bit instance. -/
def toScaledU128 (x : ℚ) (decimals : ℕ) : Except ScaledError ℤ :=
  makeToScaledBigUint 128 x decimals

/-! ### Wide split (`src/utils.ts`, `bigIntToProtoU128`) -/

/-- `U64_MAX` from `src/utils.ts`. -/
def U64_MAX : ℕ := 2 ^ 64 - 1

/-- `U128_MAX` from `src/utils.ts`. -/
def U128_MAX : ℕ := 2 ^ 128 - 1

/-- Error cases raised by `bigIntToProtoU128`. -/
inductive U128Error
  | negative
  | overflow
deriving DecidableEq

/-- The protobuf `U128` wire pair: two 64-bit words. -/
structure ProtoU128 where
  lo : ℕ
  hi : ℕ
deriving DecidableEq

/-- Shallow embedding of `bigIntToProtoU128` from `src/utils.ts`
(lines 198-211).  The guarded value is nonnegative, so JavaScript BigInt
`&` and `>>` coincide with the natural-number operations used here. -/
def bigIntToProtoU128 (value : ℤ) : Except U128Error ProtoU128 :=
  if value < 0 then .error .negative
  else if (U128_MAX : ℤ) < value then .error .overflow
  else .ok ⟨value.toNat &&& U64_MAX, (value.toNat >>> 64) &&& U64_MAX⟩

lemma ratTrunc_of_nonneg {q : ℚ} (h : 0 ≤ q) : ratTrunc q = ⌊q⌋ := by
  simp [ratTrunc, not_lt.mpr h]

lemma makeToScaledBigUint_spec (w d : ℕ) (x : ℚ) :
    (x < 0 → makeToScaledBigUint w x d = .error .negative)
  ∧ (x ≠ 0 → ⌊(10 : ℚ) ^ d * x⌋ = 0 →
      makeToScaledBigUint w x d = .error .precisionLoss)
  ∧ ((2 : ℤ) ^ w - 1 < ⌊(10 : ℚ) ^ d * x⌋ →
      makeToScaledBigUint w x d = .error .outOfRange)
  ∧ (∀ v, makeToScaledBigUint w x d = .ok v →
      v = ⌊(10 : ℚ) ^ d * x⌋ ∧ (v = 0 ↔ x = 0)) := by
  have hpow : (0 : ℚ) < 10 ^ d := by positivity
  refine ⟨?_, ?_, ?_, ?_⟩
  · intro hx
    have hx0 : x ≠ 0 := ne_of_lt hx
    simp [makeToScaledBigUint, hx0, hx]
  · intro hx0 hfl
    have hxpos : 0 < x := by
      rcases lt_trichotomy x 0 with h | h | h
      · exfalso
        have hneg : (10 : ℚ) ^ d * x < 0 := mul_neg_of_pos_of_neg hpow h
        have : ⌊(10 : ℚ) ^ d * x⌋ < 0 := Int.floor_lt.mpr (by exact_mod_cast hneg)
        omega
      · exact absurd h hx0
      · exact h
    have hprod : (0 : ℚ) ≤ 10 ^ d * x := le_of_lt (mul_pos hpow hxpos)
    simp [makeToScaledBigUint, hx0, not_lt.mpr hxpos.le,
      ratTrunc_of_nonneg hprod, hfl]
  · intro hlt
    have h2w : (0 : ℤ) < 2 ^ w := by positivity
    have hflpos : 0 < ⌊(10 : ℚ) ^ d * x⌋ := by omega
    have hxpos : 0 < x := by
      by_contra h
      push_neg at h
      have hle : (10 : ℚ) ^ d * x ≤ 0 := mul_nonpos_of_nonneg_of_nonpos hpow.le h
      have : ⌊(10 : ℚ) ^ d * x⌋ ≤ 0 := Int.floor_nonpos hle
      omega
    have hprod : (0 : ℚ) ≤ 10 ^ d * x := le_of_lt (mul_pos hpow hxpos)
    simp [makeToScaledBigUint, ne_of_gt hxpos, not_lt.mpr hxpos.le,
      ratTrunc_of_nonneg hprod, hlt, ne_of_gt hflpos]
  · intro v hv
    by_cases hx0 : x = 0
    · subst hx0
      simp [makeToScaledBigUint] at hv
      simp [← hv]
    · by_cases hxlt : x < 0
      · simp [makeToScaledBigUint, hx0, hxlt] at hv
      · have hxpos : 0 < x := lt_of_le_of_ne (not_lt.mp hxlt) (Ne.symm hx0)
        have hprod : (0 : ℚ) ≤ 10 ^ d * x := le_of_lt (mul_pos hpow hxpos)
        simp only [makeToScaledBigUint, hx0, hxlt, if_false,
          ratTrunc_of_nonneg hprod] at hv
        split_ifs at hv with h1 h2
        have hveq : ⌊(10 : ℚ) ^ d * x⌋ = v := Except.ok.inj hv
        subst hveq
        exact ⟨rfl, iff_of_false h1 hx0⟩

/-- Claim C1: for every decimal input `x` and decimals count `d`, the scaled
conversion (`toScaledU64` with width 64, `toScaledU128` with width 128) fails
with the negative-value error when `x < 0`; fails with the precision-loss
error when `x` is nonzero but `round_down(x * 10^d)` is zero; fails with the
out-of-range error when `round_down(x * 10^d)` exceeds `2^width - 1`; and
otherwise returns exactly `round_down(x * 10^d)`, which is zero iff `x` is
exactly zero. -/
theorem toScaled_correct (f : ℚ → ℕ → Except ScaledError ℤ) (w : ℕ)
    (hf : (f = toScaledU64 ∧ w = 64) ∨ (f = toScaledU128 ∧ w = 128))
    (x : ℚ) (d : ℕ) :
    (x < 0 → f x d = .error .negative)
  ∧ (x ≠ 0 → ⌊(10 : ℚ) ^ d * x⌋ = 0 → f x d = .error .precisionLoss)
  ∧ ((2 : ℤ) ^ w - 1 < ⌊(10 : ℚ) ^ d * x⌋ → f x d = .error .outOfRange)
  ∧ (∀ v, f x d = .ok v → v = ⌊(10 : ℚ) ^ d * x⌋ ∧ (v = 0 ↔ x = 0)) := by
  rcases hf with ⟨hf, hw⟩ | ⟨hf, hw⟩ <;> subst hf <;> subst hw <;>
    exact makeToScaledBigUint_spec _ d x

/-- Witness for C1 at concrete inputs: width 64, `x = -1` is rejected as
negative, and `x = 123.45` with `d = 3` scales to `123450`. -/
theorem toScaled_correct_witness :
    toScaledU64 (-1) 0 = .error .negative ∧
    toScaledU64 (12345 / 100) 3 = .ok 123450 := by
  constructor
  · exact (toScaled_correct toScaledU64 64 (Or.inl ⟨rfl, rfl⟩) (-1) 0).1
      (by norm_num)
  · norm_num [toScaledU64, makeToScaledBigUint, ratTrunc]

/-- Claim C4: `bigIntToProtoU128` fails exactly when its input is negative or
exceeds `2^128 - 1`; otherwise it returns `lo = value AND (2^64 - 1)` and
`hi = (value >> 64) AND (2^64 - 1)`, both words fit in 64 bits, and
`lo + hi * 2^64` reconstructs the input; the four boundary splits
(`0`, `2^64 - 1`, `2^64`, `2^128 - 1`) take their stated values. -/
theorem bigIntToProtoU128_correct (value : ℤ) :
    (bigIntToProtoU128 value = .error .negative ↔ value < 0)
  ∧ (bigIntToProtoU128 value = .error .overflow ↔
      0 ≤ value ∧ (U128_MAX : ℤ) < value)
  ∧ (∀ s, bigIntToProtoU128 value = .ok s →
      s.lo = value.toNat &&& U64_MAX ∧
      s.hi = (value.toNat >>> 64) &&& U64_MAX ∧
      s.lo < 2 ^ 64 ∧ s.hi < 2 ^ 64 ∧
      (s.lo : ℤ) + (s.hi : ℤ) * 2 ^ 64 = value)
  ∧ bigIntToProtoU128 0 = .ok ⟨0, 0⟩
  ∧ bigIntToProtoU128 ((2 : ℤ) ^ 64 - 1) = .ok ⟨2 ^ 64 - 1, 0⟩
  ∧ bigIntToProtoU128 ((2 : ℤ) ^ 64) = .ok ⟨0, 1⟩
  ∧ bigIntToProtoU128 ((2 : ℤ) ^ 128 - 1) = .ok ⟨2 ^ 64 - 1, 2 ^ 64 - 1⟩ := by
  refine ⟨?_, ?_, ?_, by decide, by decide, by decide, by decide⟩
  · constructor
    · intro h
      unfold bigIntToProtoU128 at h
      split_ifs at h with h1 h2 <;> simp_all
    · intro h
      unfold bigIntToProtoU128
      rw [if_pos h]
  · constructor
    · intro h
      unfold bigIntToProtoU128 at h
      split_ifs at h with h1 h2 <;> simp_all
    · intro h
      unfold bigIntToProtoU128
      rw [if_neg (not_lt.mpr h.1), if_pos h.2]
  · intro s hs
    unfold bigIntToProtoU128 at hs
    split_ifs at hs with h1 h2
    have hs' : s = ⟨value.toNat &&& U64_MAX, (value.toNat >>> 64) &&& U64_MAX⟩ := by
      simpa using hs.symm
    subst hs'
    have hlo : value.toNat &&& U64_MAX = value.toNat % 2 ^ 64 := by
      simpa [U64_MAX] using Nat.and_pow_two_sub_one_eq_mod value.toNat 64
    have hsh : value.toNat >>> 64 = value.toNat / 2 ^ 64 :=
      Nat.shiftRight_eq_div_pow value.toNat 64
    have hhi : (value.toNat >>> 64) &&& U64_MAX = value.toNat / 2 ^ 64 % 2 ^ 64 := by
      rw [hsh]
      simpa [U64_MAX] using Nat.and_pow_two_sub_one_eq_mod (value.toNat / 2 ^ 64) 64
    have hb : value.toNat ≤ U128_MAX := by
      have := Int.toNat_le_toNat (not_lt.mp h2)
      simpa [U128_MAX] using this
    have hv : (value.toNat : ℤ) = value := Int.toNat_of_nonneg (not_lt.mp h1)
    refine ⟨rfl, rfl, ?_, ?_, ?_⟩
    · rw [hlo]
      exact Nat.mod_lt _ (by positivity)
    · rw [hhi]
      exact Nat.mod_lt _ (by positivity)
    · rw [hlo, hhi, ← hv]
      have h128 : value.toNat < 2 ^ 128 := by
        have hmax : U128_MAX < 2 ^ 128 := by norm_num [U128_MAX]
        omega
      exact_mod_cast (by omega :
        value.toNat % 2 ^ 64 + value.toNat / 2 ^ 64 % 2 ^ 64 * 2 ^ 64 =
          value.toNat)

/-- Witness for C4: applying the correctness theorem at `value = 2^64`
reconstructs the input from the split words. -/
theorem bigIntToProtoU128_correct_witness :
    ((0 : ℕ) : ℤ) + ((1 : ℕ) : ℤ) * 2 ^ 64 = (2 : ℤ) ^ 64 :=
  (((bigIntToProtoU128_correct ((2 : ℤ) ^ 64)).2.2.1 ⟨0, 1⟩
    (by decide)).2.2.2.2)

/-! ### Data model: enums and action payloads (`src/types.ts`, `src/gen`) -/

/-- `KeyType` from `src/types.ts`. -/
inductive KeyType
  | ed25519
  | secp256k1
  | bls12_381
deriving DecidableEq

/-- `Side` from `src/types.ts`. -/
inductive Side
  | ask
  | bid
deriving DecidableEq

/-- `FillMode` from `src/types.ts`. -/
inductive FillMode
  | limit
  | postOnly
  | immediateOrCancel
  | fillOrKill
deriving DecidableEq

/-- The protobuf `Side` enumeration. -/
inductive ProtoSide
  | ASK
  | BID
deriving DecidableEq

/-- The protobuf `FillMode` enumeration. -/
inductive ProtoFillMode
  | LIMIT
  | POST_ONLY
  | IMMEDIATE_OR_CANCEL
  | FILL_OR_KILL
deriving DecidableEq

/-- `fillModeToProtoFillMode` from `src/types.ts` (lines 294-301).  The
TypeScript enum is closed, so the trailing invalid-fill-mode throw is
unreachable and the embedding is total. -/
def fillModeToProtoFillMode : FillMode → ProtoFillMode
  | .limit => .LIMIT
  | .postOnly => .POST_ONLY
  | .immediateOrCancel => .IMMEDIATE_OR_CANCEL
  | .fillOrKill => .FILL_OR_KILL

/-- Modelled from the spec: the generated protobuf payload of the
`createSession` action kind (`src/gen/nord` is not under `src/`); its fields
are those set by `createSessionImpl` in `src/nord/actions.ts`. -/
structure CreateSessionKind where
  userPubkey : List ℕ
  blstPubkey : List ℕ
  expiryTimestamp : ℕ
deriving DecidableEq

/-- Modelled from the spec: the generated protobuf payload of the
`revokeSession` action kind. -/
structure RevokeSessionKind where
  sessionId : ℕ
deriving DecidableEq

/-- Modelled from the spec: the generated protobuf payload of the
`withdraw` action kind. -/
structure WithdrawKind where
  sessionId : ℕ
  tokenId : ℕ
  amount : ℕ
deriving DecidableEq

/-- Modelled from the spec: the generated protobuf payload of the
`placeOrder` action kind; its fields are those set by `placeOrderImpl`. -/
structure PlaceOrderKind where
  sessionId : ℕ
  senderAccountId : Option ℕ
  marketId : ℕ
  side : ProtoSide
  fillMode : ProtoFillMode
  isReduceOnly : Bool
  price : ℕ
  size : ℕ
  quoteSize : ProtoU128
  clientOrderId : Option ℕ
  delegatorAccountId : Option ℕ
deriving DecidableEq

/-- Modelled from the spec: the generated protobuf payload of the
`cancelOrderById` action kind. -/
structure CancelOrderByIdKind where
  orderId : ℕ
  sessionId : ℕ
  senderAccountId : Option ℕ
  delegatorAccountId : Option ℕ
deriving DecidableEq

/-- Modelled from the spec: the generated protobuf payload of the
`transfer` action kind. -/
structure TransferKind where
  sessionId : ℕ
  fromAccountId : ℕ
  toAccountId : Option ℕ
  tokenId : ℕ
  amount : ℕ
deriving DecidableEq

/-- Modelled from the spec: the tagged union of the six action kinds
(`Action.kind` in the generated protobuf code). -/
inductive ActionKind
  | createSession (v : CreateSessionKind)
  | revokeSession (v : RevokeSessionKind)
  | withdraw (v : WithdrawKind)
  | placeOrder (v : PlaceOrderKind)
  | cancelOrderById (v : CancelOrderByIdKind)
  | transfer (v : TransferKind)
deriving DecidableEq

/-- Modelled from the spec: the top-level protobuf `Action` message, carrying
`currentTimestamp` and `nonce` alongside the tagged kind. -/
structure Action where
  currentTimestamp : ℕ
  nonce : ℕ
  kind : ActionKind
deriving DecidableEq

/-! ### Action builders (`src/nord/actions.ts`, `src/utils.ts`) -/

/-- The validation failures raised by the builders in `src/nord/actions.ts`
and `checkPubKeyLength` in `src/utils.ts`. -/
inductive BuildError
  | scaled (e : ScaledError)
  | u128 (e : U128Error)
  | blsNotSupported
  | ed25519BadLength
  | secp256k1BadLength
  | expiryInPast
deriving DecidableEq

/-- Shallow embedding of `checkPubKeyLength` from `src/utils.ts`
(lines 272-286): Bls12_381 is rejected outright, Ed25519 keys must have
length 32, Secp256k1 keys length 33. -/
def checkPubKeyLength : KeyType → ℕ → Except BuildError Unit
  | .bls12_381, _ => .error .blsNotSupported
  | .ed25519, len => if len ≠ 32 then .error .ed25519BadLength else .ok ()
  | .secp256k1, len => if len ≠ 33 then .error .secp256k1BadLength else .ok ()

/-- `SESSION_TTL` from `src/utils.ts`: ten minutes scaled by 10000. -/
def SESSION_TTL : ℕ := 10 * 60 * 1000 * 10000

/-- Shallow embedding of the pure build-and-validate prefix of
`createSessionImpl` from `src/nord/actions.ts` (lines 73-111): key-length
validation, then expiry selection (caller-supplied value must exceed
`currentTimestamp`; default is `currentTimestamp + SESSION_TTL`). -/
def createSessionBuild (currentTimestamp : ℕ) (nonce : ℕ)
    (userPubkey sessionPubkey : List ℕ) (expiryTimestamp : Option ℕ) :
    Except BuildError Action := do
  let _ ← checkPubKeyLength .secp256k1 userPubkey.length
  let _ ← checkPubKeyLength .ed25519 sessionPubkey.length
  let expiry ← match expiryTimestamp with
    | some e =>
        if e > currentTimestamp then pure e else .error .expiryInPast
    | none => pure (currentTimestamp + SESSION_TTL)
  .ok { currentTimestamp, nonce,
        kind := .createSession
          { userPubkey, blstPubkey := sessionPubkey,
            expiryTimestamp := expiry } }

/-- Shallow embedding of the pure build-and-validate prefix of
`placeOrderImpl` from `src/nord/actions.ts` (lines 249-298): `price` and
`size` scale to 64 bits with the market decimal counts, `quoteSize` scales
to 128 bits with `priceDecimals + sizeDecimals` and is split into the wide
pair; omitted decimal parameters default to zero. -/
def placeOrderBuild (currentTimestamp : ℕ) (nonce : ℕ) (sessionId : ℕ)
    (senderId liquidateeId : Option ℕ) (sizeDecimals priceDecimals : ℕ)
    (marketId : ℕ) (side : Side) (fillMode : FillMode) (isReduceOnly : Bool)
    (size price quoteSize : Option ℚ) (clientOrderId : Option ℕ) :
    Except BuildError Action := do
  let priceScaled ← (toScaledU64 (price.getD 0) priceDecimals).mapError .scaled
  let sizeScaled ← (toScaledU64 (size.getD 0) sizeDecimals).mapError .scaled
  let quoteScaled ←
    (toScaledU128 (quoteSize.getD 0) (priceDecimals + sizeDecimals)).mapError
      .scaled
  let quoteSplit ← (bigIntToProtoU128 quoteScaled).mapError .u128
  .ok { currentTimestamp, nonce,
        kind := .placeOrder
          { sessionId, senderAccountId := senderId, marketId,
            side := if side = Side.bid then ProtoSide.BID else ProtoSide.ASK,
            fillMode := fillModeToProtoFillMode fillMode, isReduceOnly,
            price := priceScaled.toNat, size := sizeScaled.toNat,
            quoteSize := quoteSplit, clientOrderId,
            delegatorAccountId := liquidateeId } }

/-- Counterexample to claim C3: building a `PlaceOrder` with `price = 1`,
`size = 1`, `priceDecimals = 2`, `sizeDecimals = 6` and `quoteSize` left
unset scales price and size as claimed, but `quoteSize` defaults to zero and
its wide split is `{lo := 0, hi := 0}`, not `{lo := 100000000, hi := 0}`. -/
theorem placeOrderBuild_quoteSize_counterexample :
    placeOrderBuild 0 0 0 none none 6 2 0 .ask .limit false
      (some 1) (some 1) none none =
      .ok { currentTimestamp := 0, nonce := 0,
            kind := .placeOrder
              { sessionId := 0, senderAccountId := none, marketId := 0,
                side := .ASK, fillMode := .LIMIT, isReduceOnly := false,
                price := 100, size := 1000000, quoteSize := ⟨0, 0⟩,
                clientOrderId := none, delegatorAccountId := none } }
    ∧ (⟨0, 0⟩ : ProtoU128) ≠ ⟨100000000, 0⟩ := by
  refine ⟨?_, by decide⟩
  norm_num [placeOrderBuild, toScaledU64, toScaledU128, makeToScaledBigUint,
    ratTrunc, bigIntToProtoU128, Except.mapError, bind, Except.bind,
    U128_MAX, U64_MAX]
  decide

/-- Claim C3 as amended: with `price = 1`, `size = 1`, `priceDecimals = 2`,
`sizeDecimals = 6` the scaled price is 100 and the scaled size is 1000000;
the claimed `quoteSize` split `{lo := 100000000, hi := 0}` is produced when
`quoteSize = 1` is supplied, while an omitted `quoteSize` defaults to zero
and splits to `{lo := 0, hi := 0}`. -/
theorem placeOrderBuild_scaling :
    placeOrderBuild 0 0 0 none none 6 2 0 .ask .limit false
      (some 1) (some 1) (some 1) none =
      .ok { currentTimestamp := 0, nonce := 0,
            kind := .placeOrder
              { sessionId := 0, senderAccountId := none, marketId := 0,
                side := .ASK, fillMode := .LIMIT, isReduceOnly := false,
                price := 100, size := 1000000,
                quoteSize := ⟨100000000, 0⟩,
                clientOrderId := none, delegatorAccountId := none } }
    ∧ placeOrderBuild 0 0 0 none none 6 2 0 .ask .limit false
      (some 1) (some 1) none none =
      .ok { currentTimestamp := 0, nonce := 0,
            kind := .placeOrder
              { sessionId := 0, senderAccountId := none, marketId := 0,
                side := .ASK, fillMode := .LIMIT, isReduceOnly := false,
                price := 100, size := 1000000, quoteSize := ⟨0, 0⟩,
                clientOrderId := none, delegatorAccountId := none } } := by
  constructor <;>
    norm_num [placeOrderBuild, toScaledU64, toScaledU128, makeToScaledBigUint,
      ratTrunc, bigIntToProtoU128, Except.mapError, bind, Except.bind,
      U128_MAX, U64_MAX] <;>
    decide

/-- Claim C7: the `CreateSession` builder fails with an invalid-key-length
error unless `userPubkey` has length 33 (Secp256k1) and `sessionPubkey` has
length 32 (Ed25519); Bls12_381 keys are always rejected regardless of
length; a caller-supplied expiry must strictly exceed `currentTimestamp` or
the builder fails with the expiry-in-past error; an omitted expiry defaults
to `currentTimestamp + SESSION_TTL` with
`SESSION_TTL = 10 * 60 * 1000 * 10000`. -/
theorem createSessionBuild_correct (ts n : ℕ) (u s : List ℕ)
    (e? : Option ℕ) :
    (u.length ≠ 33 →
      createSessionBuild ts n u s e? = .error .secp256k1BadLength)
  ∧ (u.length = 33 → s.length ≠ 32 →
      createSessionBuild ts n u s e? = .error .ed25519BadLength)
  ∧ (∀ e, u.length = 33 → s.length = 32 → e? = some e → e ≤ ts →
      createSessionBuild ts n u s e? = .error .expiryInPast)
  ∧ (∀ e, u.length = 33 → s.length = 32 → e? = some e → ts < e →
      createSessionBuild ts n u s e? =
        .ok { currentTimestamp := ts, nonce := n,
              kind := .createSession
                { userPubkey := u, blstPubkey := s,
                  expiryTimestamp := e } })
  ∧ (u.length = 33 → s.length = 32 → e? = none →
      createSessionBuild ts n u s e? =
        .ok { currentTimestamp := ts, nonce := n,
              kind := .createSession
                { userPubkey := u, blstPubkey := s,
                  expiryTimestamp := ts + SESSION_TTL } })
  ∧ SESSION_TTL = 10 * 60 * 1000 * 10000
  ∧ (∀ len, checkPubKeyLength .bls12_381 len = .error .blsNotSupported) := by
  refine ⟨?_, ?_, ?_, ?_, ?_, rfl, fun len => rfl⟩
  · intro hu
    simp [createSessionBuild, checkPubKeyLength, hu, bind, Except.bind]
  · intro hu hs
    simp [createSessionBuild, checkPubKeyLength, hu, hs, bind, Except.bind]
  · intro e hu hs he hle
    subst he
    simp [createSessionBuild, checkPubKeyLength, hu, hs, bind, Except.bind,
      not_lt.mpr hle]
  · intro e hu hs he hlt
    subst he
    simp [createSessionBuild, checkPubKeyLength, hu, hs, bind, Except.bind,
      hlt, pure, Except.pure]
  · intro hu hs he
    subst he
    simp [createSessionBuild, checkPubKeyLength, hu, hs, bind, Except.bind,
      pure, Except.pure]

/-- Witness for C7 at concrete inputs: a 33-byte user key and 32-byte
session key with no caller expiry yields the default expiry
`currentTimestamp + SESSION_TTL`, and a 5-byte session key is rejected. -/
theorem createSessionBuild_correct_witness :
    createSessionBuild 100 7 (List.replicate 33 0) (List.replicate 32 0)
      none =
      .ok { currentTimestamp := 100, nonce := 7,
            kind := .createSession
              { userPubkey := List.replicate 33 0,
                blstPubkey := List.replicate 32 0,
                expiryTimestamp := 100 + SESSION_TTL } }
    ∧ createSessionBuild 100 7 (List.replicate 33 0) (List.replicate 5 0)
      none = .error .ed25519BadLength :=
  ⟨(createSessionBuild_correct 100 7 (List.replicate 33 0)
      (List.replicate 32 0) none).2.2.2.2.1 (by simp) (by simp) rfl,
   (createSessionBuild_correct 100 7 (List.replicate 33 0)
      (List.replicate 5 0) none).2.1 (by simp) (by simp)⟩

/-! ### Nonce counter (`NordUser.getNonce`) -/

/-- The per-caller nonce counter fields `lastTs` and `lastNonce` of
`NordUser`.  The timestamp `Date.now() / 1000` is a JavaScript double and
need not be integral, so it is carried as a rational; `getNonce` only
compares it for equality. -/
structure NonceState where
  lastTs : ℚ
  lastNonce : ℕ
deriving DecidableEq

/-- Shallow embedding of `NordUser.getNonce` (lines 72-81 of the
`NordUser` source): a call in the same timestamp tick increments the
counter, a call in a new tick stores the tick and resets the counter to
zero; the returned nonce is the updated counter. -/
def getNonce (ts : ℚ) (s : NonceState) : ℕ × NonceState :=
  if ts = s.lastTs then
    (s.lastNonce + 1, { s with lastNonce := s.lastNonce + 1 })
  else
    (0, { lastTs := ts, lastNonce := 0 })

/-- Claim C9: a `getNonce` call whose timestamp equals the stored `lastTs`
returns `lastNonce + 1`, a call whose timestamp differs resets the counter
and returns 0, and two calls issued in the same timestamp tick receive
strictly increasing nonces. -/
theorem getNonce_correct (ts : ℚ) (s : NonceState) :
    (ts = s.lastTs →
      getNonce ts s = (s.lastNonce + 1, ⟨s.lastTs, s.lastNonce + 1⟩))
  ∧ (ts ≠ s.lastTs → getNonce ts s = (0, ⟨ts, 0⟩))
  ∧ (getNonce ts (getNonce ts s).2).1 = (getNonce ts s).1 + 1 := by
  refine ⟨?_, ?_, ?_⟩
  · intro h
    simp [getNonce, h]
  · intro h
    simp [getNonce, h]
  · by_cases h : ts = s.lastTs <;> simp [getNonce, h]

/-- Witness for C9 at a concrete state: with `lastTs = 5` and
`lastNonce = 3`, a call at timestamp 5 returns 4 and a call at timestamp 6
returns 0. -/
theorem getNonce_correct_witness :
    getNonce 5 ⟨5, 3⟩ = (4, ⟨5, 4⟩) ∧ getNonce 6 ⟨5, 3⟩ = (0, ⟨6, 0⟩) :=
  ⟨(getNonce_correct 5 ⟨5, 3⟩).1 rfl,
   (getNonce_correct 6 ⟨5, 3⟩).2.1 (by norm_num)⟩

/-! ### Receipts and post-submission validation (`src/nord/actions.ts`) -/

/-- Modelled from the spec: the payload of a `placeOrderResult` receipt,
whose optional `posted` message carries the resting order id
(`resp.kind.value.posted?.orderId` in `placeOrderImpl`). -/
structure PlaceOrderResult where
  posted : Option ℕ
deriving DecidableEq

/-- Modelled from the spec: the payload of a `transferred` receipt
(`accountCreated` flag and the destination account id, read by
`transferImpl`). -/
structure TransferredResult where
  accountCreated : Bool
  toAccountId : ℕ
deriving DecidableEq

/-- Modelled from the spec: the tagged union of receipt kinds mirroring the
action kinds, plus the `err` variant carrying the server error code
(`src/gen/nord` is not under `src/`; the constructors are those matched by
`sendAction` and the per-variant handlers in `src/nord/actions.ts`). -/
inductive ReceiptKind
  | err (code : ℕ)
  | createSessionResult (sessionId : ℕ)
  | revokeSessionResult
  | withdrawResult
  | placeOrderResult (v : PlaceOrderResult)
  | cancelOrderResult (orderId : ℕ)
  | transferred (v : TransferredResult)
deriving DecidableEq

/-- Modelled from the spec: the protobuf `Receipt` message; its `kind` field
is optional in the generated code (`resp.kind?.$case`). -/
structure Receipt where
  kind : Option ReceiptKind
deriving DecidableEq

/-- The failures surfaced while interpreting a decoded receipt. -/
inductive SubmitError
  | serverError (code : ℕ)
  | unexpectedReceiptKind
deriving DecidableEq

/-- Shallow embedding of the receipt check in `sendAction`
(`src/nord/actions.ts` lines 53-71): an `err` receipt raises the
server-supplied error code, any other receipt is passed through. -/
def sendActionCheck (resp : Receipt) : Except SubmitError Receipt :=
  match resp.kind with
  | some (.err code) => .error (.serverError code)
  | _ => .ok resp

/-- Receipt handling of `createSessionImpl` (lines 113-125): after
`sendAction`, a `createSessionResult` receipt yields the session id and any
other kind raises the unexpected-receipt-kind error. -/
def createSessionReceipt (resp : Receipt) : Except SubmitError ℕ := do
  let r ← sendActionCheck resp
  match r.kind with
  | some (.createSessionResult sid) => .ok sid
  | _ => .error .unexpectedReceiptKind

/-- Receipt handling of `revokeSessionImpl` (lines 148-174): the result of
`sendAction` is awaited and discarded; no receipt-kind check is performed. -/
def revokeSessionReceipt (resp : Receipt) : Except SubmitError Unit := do
  let _ ← sendActionCheck resp
  .ok ()

/-- Receipt handling of `withdrawImpl` (lines 194-226): the result of
`sendAction` is awaited and discarded; no receipt-kind check is performed. -/
def withdrawReceipt (resp : Receipt) : Except SubmitError Unit := do
  let _ ← sendActionCheck resp
  .ok ()

/-- Receipt handling of `placeOrderImpl` (lines 300-312): a
`placeOrderResult` receipt yields `posted?.orderId` (possibly absent), any
other kind raises the unexpected-receipt-kind error. -/
def placeOrderReceipt (resp : Receipt) : Except SubmitError (Option ℕ) := do
  let r ← sendActionCheck resp
  match r.kind with
  | some (.placeOrderResult v) => .ok v.posted
  | _ => .error .unexpectedReceiptKind

/-- Receipt handling of `cancelOrderImpl` (lines 370-382): a
`cancelOrderResult` receipt yields the order id, any other kind raises the
unexpected-receipt-kind error. -/
def cancelOrderReceipt (resp : Receipt) : Except SubmitError ℕ := do
  let r ← sendActionCheck resp
  match r.kind with
  | some (.cancelOrderResult oid) => .ok oid
  | _ => .error .unexpectedReceiptKind

/-- Receipt handling of `transferImpl` (lines 434-450): a `transferred`
receipt yields the new account id when `accountCreated` is set and nothing
otherwise; any other kind raises the unexpected-receipt-kind error. -/
def transferReceipt (resp : Receipt) : Except SubmitError (Option ℕ) := do
  let r ← sendActionCheck resp
  match r.kind with
  | some (.transferred v) =>
      if v.accountCreated then .ok (some v.toAccountId) else .ok none
  | _ => .error .unexpectedReceiptKind

/-- Counterexample to claim C2: a `RevokeSession` submission that receives a
receipt of the wrong kind (`createSessionResult`) succeeds instead of
failing with the unexpected-receipt-kind error, because `revokeSessionImpl`
never inspects the receipt kind after `sendAction`. -/
theorem revokeSession_skew_counterexample :
    revokeSessionReceipt ⟨some (.createSessionResult 7)⟩ = .ok ()
    ∧ revokeSessionReceipt ⟨some (.createSessionResult 7)⟩ ≠
        .error .unexpectedReceiptKind := by
  exact ⟨rfl, by decide⟩

/-- Claim C2 as amended: for every variant, an `err` receipt fails with the
server-supplied code; a receipt kind other than the expected result tag
raises the unexpected-receipt-kind error for `CreateSession`, `PlaceOrder`,
`CancelOrderById` and `Transfer`, while `RevokeSession` and `Withdraw`
accept any non-error receipt without checking its kind. -/
theorem receiptValidation_correct (resp : Receipt) :
    (∀ code, resp.kind = some (.err code) →
      createSessionReceipt resp = .error (.serverError code)
      ∧ revokeSessionReceipt resp = .error (.serverError code)
      ∧ withdrawReceipt resp = .error (.serverError code)
      ∧ placeOrderReceipt resp = .error (.serverError code)
      ∧ cancelOrderReceipt resp = .error (.serverError code)
      ∧ transferReceipt resp = .error (.serverError code))
  ∧ ((∀ code, resp.kind ≠ some (.err code)) →
      ((∀ sid, resp.kind ≠ some (.createSessionResult sid)) →
        createSessionReceipt resp = .error .unexpectedReceiptKind)
      ∧ ((∀ v, resp.kind ≠ some (.placeOrderResult v)) →
        placeOrderReceipt resp = .error .unexpectedReceiptKind)
      ∧ ((∀ oid, resp.kind ≠ some (.cancelOrderResult oid)) →
        cancelOrderReceipt resp = .error .unexpectedReceiptKind)
      ∧ ((∀ v, resp.kind ≠ some (.transferred v)) →
        transferReceipt resp = .error .unexpectedReceiptKind)
      ∧ revokeSessionReceipt resp = .ok ()
      ∧ withdrawReceipt resp = .ok ()) := by
  obtain ⟨k⟩ := resp
  constructor
  · rintro code rfl
    refine ⟨rfl, rfl, rfl, rfl, rfl, rfl⟩
  · intro hne
    match k with
    | none =>
        refine ⟨fun _ => rfl, fun _ => rfl, fun _ => rfl, fun _ => rfl,
          rfl, rfl⟩
    | some (.err code) => exact absurd rfl (hne code)
    | some (.createSessionResult sid) =>
        exact ⟨fun h => absurd rfl (h sid), fun _ => rfl, fun _ => rfl,
          fun _ => rfl, rfl, rfl⟩
    | some .revokeSessionResult =>
        refine ⟨fun _ => rfl, fun _ => rfl, fun _ => rfl, fun _ => rfl,
          rfl, rfl⟩
    | some .withdrawResult =>
        refine ⟨fun _ => rfl, fun _ => rfl, fun _ => rfl, fun _ => rfl,
          rfl, rfl⟩
    | some (.placeOrderResult v) =>
        exact ⟨fun _ => rfl, fun h => absurd rfl (h v), fun _ => rfl,
          fun _ => rfl, rfl, rfl⟩
    | some (.cancelOrderResult oid) =>
        exact ⟨fun _ => rfl, fun _ => rfl, fun h => absurd rfl (h oid),
          fun _ => rfl, rfl, rfl⟩
    | some (.transferred v) =>
        refine ⟨fun _ => rfl, fun _ => rfl, fun _ => rfl,
          fun h => absurd rfl (h v), rfl, rfl⟩

/-- Witness for C2 at a concrete receipt: an `err` receipt with code 9 fails
every variant with `serverError 9`, and a `withdrawResult` receipt makes
`createSessionReceipt` fail with the unexpected-receipt-kind error. -/
theorem receiptValidation_correct_witness :
    placeOrderReceipt ⟨some (.err 9)⟩ = .error (.serverError 9)
    ∧ createSessionReceipt ⟨some .withdrawResult⟩ =
        .error .unexpectedReceiptKind :=
  ⟨((receiptValidation_correct ⟨some (.err 9)⟩).1 9 rfl).2.2.2.1,
   ((receiptValidation_correct ⟨some .withdrawResult⟩).2
      (by intro code h; cases h)).1 (by intro sid h; cases h)⟩

/-- Claim C10: a `placeOrderResult` receipt whose `posted` field is absent
(an immediately and fully filled order) resolves to no order id rather than
raising an error. -/
theorem placeOrder_unposted :
    placeOrderReceipt ⟨some (.placeOrderResult ⟨none⟩)⟩ = .ok none := rfl

/-! ### Signing schemes (`src/nord/actions.ts`, `sessionSign`/`walletSign`) -/

/-- One byte rendered as its two hex-digit values, high nibble first, as in
the `0x`-prefixed hex signature strings produced by the wallet signer
(`ethers.getBytes` strips the prefix, so only the digits are carried). -/
def byteToHexPair (b : ℕ) : List ℕ :=
  [b / 16, b % 16]

/-- A byte list rendered as its hex-digit string. -/
def bytesToHexDigits : List ℕ → List ℕ
  | [] => []
  | b :: rest => byteToHexPair b ++ bytesToHexDigits rest

/-- Parsing a hex-digit string back into bytes, two digits per byte, as
`ethers.getBytes` does. -/
def hexDigitsToBytes : List ℕ → List ℕ
  | h :: l :: rest => (16 * h + l) :: hexDigitsToBytes rest
  | _ => []

/-- Shallow embedding of `sessionSign` from `src/nord/actions.ts`
(lines 19-25), applied to the signature returned by the injected session
signing capability: the authenticated message is the message followed by
the whole signature. -/
def sessionSign (message signature : List ℕ) : List ℕ :=
  message ++ signature

/-- Shallow embedding of `walletSign` from `src/nord/actions.ts`
(lines 27-36), applied to the signature returned by the injected wallet
signing capability as a hex string: `signature.slice(0, -2)` removes the
final two hex characters (the recovery indicator byte) and
`ethers.getBytes` re-parses the digits. -/
def walletSign (message signature : List ℕ) : List ℕ :=
  message ++
    hexDigitsToBytes ((bytesToHexDigits signature).dropLast.dropLast)

lemma hexDigitsToBytes_bytesToHexDigits :
    ∀ bs : List ℕ, hexDigitsToBytes (bytesToHexDigits bs) = bs
  | [] => rfl
  | b :: rest => by
      show hexDigitsToBytes (b / 16 :: b % 16 :: bytesToHexDigits rest) =
        b :: rest
      rw [hexDigitsToBytes, hexDigitsToBytes_bytesToHexDigits rest,
        Nat.div_add_mod]

lemma bytesToHexDigits_dropLast (bs : List ℕ) :
    (bytesToHexDigits bs).dropLast.dropLast =
      bytesToHexDigits bs.dropLast := by
  induction bs using List.reverseRecOn with
  | nil => rfl
  | append_singleton xs x ih =>
      have happ : ∀ ys : List ℕ,
          bytesToHexDigits (ys ++ [x]) =
            bytesToHexDigits ys ++ [x / 16, x % 16] := by
        intro ys
        induction ys with
        | nil => rfl
        | cons y ys ihy =>
            show byteToHexPair y ++ bytesToHexDigits (ys ++ [x]) = _
            rw [ihy]
            simp [bytesToHexDigits]
      rw [happ xs, List.dropLast_concat]
      have hsplit : bytesToHexDigits xs ++ [x / 16, x % 16] =
          (bytesToHexDigits xs ++ [x / 16]) ++ [x % 16] := by
        simp
      rw [hsplit, List.dropLast_concat, List.dropLast_concat]

/-- Claim C8: for every encoded action and signature returned by the
injected signing capability, the wallet-signing scheme produces exactly the
encoded action bytes followed by the signature with its final recovery
indicator byte stripped, and the session-signing scheme produces exactly the
encoded action bytes followed by the full signature. -/
theorem signing_schemes_correct (message signature : List ℕ) :
    walletSign message signature = message ++ signature.dropLast
  ∧ sessionSign message signature = message ++ signature := by
  refine ⟨?_, rfl⟩
  unfold walletSign
  rw [bytesToHexDigits_dropLast, hexDigitsToBytes_bytesToHexDigits]

/-! ### Wire codec: varints and field coders

`encodeLengthDelimited`/`decodeLengthDelimited` in `src/utils.ts` wrap an
externally supplied protobuf coder (`src/gen/nord`, generated code not under
`src/`).  The length prefix written by `BinaryWriter.uint32` and read by
`BinaryReader.uint32` is a little-endian base-128 varint, embedded here
directly; the schema coder for `Action` is modelled from the spec as an
injective tagged serializer with a total inverse. -/

/-- Little-endian base-128 varint encoding, fuelled for structural
recursion; the fuel never runs out when it starts at `n + 1`. -/
def varintEncodeAux : ℕ → ℕ → List ℕ
  | 0, _ => []
  | fuel + 1, n =>
      if n < 128 then [n]
      else (n % 128 + 128) :: varintEncodeAux fuel (n / 128)

/-- Little-endian base-128 varint encoding of a natural number, as written
by `BinaryWriter.uint32` for the length prefix. -/
def varintEncode (n : ℕ) : List ℕ :=
  varintEncodeAux (n + 1) n

/-- Varint decoding, as performed by `BinaryReader.uint32`: returns the
value and the remaining bytes, or nothing when the buffer ends inside the
varint. -/
def varintDecode : List ℕ → Option (ℕ × List ℕ)
  | [] => none
  | b :: rest =>
      if b < 128 then some (b, rest)
      else
        match varintDecode rest with
        | some (v, rest₁) => some (v * 128 + (b - 128), rest₁)
        | none => none

lemma varintDecode_encodeAux :
    ∀ fuel n tail, n < fuel →
      varintDecode (varintEncodeAux fuel n ++ tail) = some (n, tail) := by
  intro fuel
  induction fuel with
  | zero => intro n tail h; omega
  | succ f ih =>
      intro n tail h
      by_cases hn : n < 128
      · simp [varintEncodeAux, hn, varintDecode]
      · have hdiv : n / 128 < n := Nat.div_lt_self (by omega) (by omega)
        have hb : ¬ n % 128 + 128 < 128 := by omega
        have hrec := ih (n / 128) tail (by omega)
        simp only [varintEncodeAux, hn, if_false, List.cons_append,
          varintDecode, hb, hrec]
        have hmod : n / 128 * 128 + (n % 128 + 128 - 128) = n := by omega
        simp only [hmod]

lemma varintDecode_encode (n : ℕ) (tail : List ℕ) :
    varintDecode (varintEncode n ++ tail) = some (n, tail) :=
  varintDecode_encodeAux (n + 1) n tail (Nat.lt_succ_self n)

lemma varintDecode_append :
    ∀ bytes : List ℕ, ∀ junk len rest,
      varintDecode bytes = some (len, rest) →
      varintDecode (bytes ++ junk) = some (len, rest ++ junk) := by
  intro bytes
  induction bytes with
  | nil => intro junk len rest h; cases h
  | cons b bs ih =>
      intro junk len rest h
      by_cases hb : b < 128
      · rw [varintDecode, if_pos hb] at h
        obtain ⟨rfl, rfl⟩ := Prod.mk.inj (Option.some.inj h)
        simp [varintDecode, hb]
      · rw [varintDecode, if_neg hb] at h
        match hrec : varintDecode bs with
        | some (v, rest₁) =>
            rw [hrec] at h
            obtain ⟨rfl, rfl⟩ := Prod.mk.inj (Option.some.inj h)
            simp [varintDecode, hb, ih junk v rest₁ hrec]
        | none => rw [hrec] at h; cases h

/-- Length-prefixed byte-field coder (protobuf `bytes`). -/
def encBytes (bs : List ℕ) : List ℕ :=
  varintEncode bs.length ++ bs

/-- Inverse of `encBytes`. -/
def decBytes (l : List ℕ) : Option (List ℕ × List ℕ) :=
  match varintDecode l with
  | some (n, rest) =>
      if n ≤ rest.length then some (rest.take n, rest.drop n) else none
  | none => none

lemma decBytes_enc (bs rest : List ℕ) :
    decBytes (encBytes bs ++ rest) = some (bs, rest) := by
  simp only [encBytes, List.append_assoc, decBytes,
    varintDecode_encode bs.length (bs ++ rest)]
  rw [if_pos (by simp)]
  simp

/-- Boolean field coder (protobuf varint 0/1). -/
def encBool (b : Bool) : List ℕ :=
  [if b then 1 else 0]

/-- Inverse of `encBool`. -/
def decBool : List ℕ → Option (Bool × List ℕ)
  | 0 :: rest => some (false, rest)
  | 1 :: rest => some (true, rest)
  | _ => none

lemma decBool_enc (b : Bool) (rest : List ℕ) :
    decBool (encBool b ++ rest) = some (b, rest) := by
  cases b <;> rfl

/-- Optional-field coder: a presence byte followed by the payload. -/
def encOption {α : Type} (enc : α → List ℕ) : Option α → List ℕ
  | none => [0]
  | some a => 1 :: enc a

/-- Inverse of `encOption`. -/
def decOption {α : Type} (dec : List ℕ → Option (α × List ℕ)) :
    List ℕ → Option (Option α × List ℕ)
  | 0 :: rest => some (none, rest)
  | 1 :: rest =>
      match dec rest with
      | some (a, rest₁) => some (some a, rest₁)
      | none => none
  | _ => none

lemma decOption_enc {α : Type} (enc : α → List ℕ)
    (dec : List ℕ → Option (α × List ℕ))
    (hrt : ∀ a rest, dec (enc a ++ rest) = some (a, rest))
    (x : Option α) (rest : List ℕ) :
    decOption dec (encOption enc x ++ rest) = some (x, rest) := by
  cases x with
  | none => rfl
  | some a => simp [encOption, decOption, hrt a rest]

/-- `ProtoSide` enum coder. -/
def encSide : ProtoSide → List ℕ
  | .ASK => [0]
  | .BID => [1]

/-- Inverse of `encSide`. -/
def decSide : List ℕ → Option (ProtoSide × List ℕ)
  | 0 :: rest => some (.ASK, rest)
  | 1 :: rest => some (.BID, rest)
  | _ => none

lemma decSide_enc (s : ProtoSide) (rest : List ℕ) :
    decSide (encSide s ++ rest) = some (s, rest) := by
  cases s <;> rfl

/-- `ProtoFillMode` enum coder. -/
def encFillMode : ProtoFillMode → List ℕ
  | .LIMIT => [0]
  | .POST_ONLY => [1]
  | .IMMEDIATE_OR_CANCEL => [2]
  | .FILL_OR_KILL => [3]

/-- Inverse of `encFillMode`. -/
def decFillMode : List ℕ → Option (ProtoFillMode × List ℕ)
  | 0 :: rest => some (.LIMIT, rest)
  | 1 :: rest => some (.POST_ONLY, rest)
  | 2 :: rest => some (.IMMEDIATE_OR_CANCEL, rest)
  | 3 :: rest => some (.FILL_OR_KILL, rest)
  | _ => none

lemma decFillMode_enc (m : ProtoFillMode) (rest : List ℕ) :
    decFillMode (encFillMode m ++ rest) = some (m, rest) := by
  cases m <;> rfl

/-- `ProtoU128` wide-pair coder: the two 64-bit words in order. -/
def encU128 (u : ProtoU128) : List ℕ :=
  varintEncode u.lo ++ varintEncode u.hi

/-- Inverse of `encU128`. -/
def decU128 (l : List ℕ) : Option (ProtoU128 × List ℕ) := do
  let (lo, l) ← varintDecode l
  let (hi, l) ← varintDecode l
  pure (⟨lo, hi⟩, l)

lemma decU128_enc (u : ProtoU128) (rest : List ℕ) :
    decU128 (encU128 u ++ rest) = some (u, rest) := by
  obtain ⟨lo, hi⟩ := u
  simp [encU128, decU128, List.append_assoc, varintDecode_encode, bind,
    Option.bind, pure]

/-! ### Modelled `Action` schema coder -/

/-- Modelled from the spec: serializer for the `createSession` payload. -/
def encCreateSessionKind (v : CreateSessionKind) : List ℕ :=
  encBytes v.userPubkey ++ encBytes v.blstPubkey ++
    varintEncode v.expiryTimestamp

/-- Inverse of `encCreateSessionKind`. -/
def decCreateSessionKind (l : List ℕ) :
    Option (CreateSessionKind × List ℕ) := do
  let (u, l) ← decBytes l
  let (b, l) ← decBytes l
  let (e, l) ← varintDecode l
  pure (⟨u, b, e⟩, l)

/-- Modelled from the spec: serializer for the `revokeSession` payload. -/
def encRevokeSessionKind (v : RevokeSessionKind) : List ℕ :=
  varintEncode v.sessionId

/-- Inverse of `encRevokeSessionKind`. -/
def decRevokeSessionKind (l : List ℕ) :
    Option (RevokeSessionKind × List ℕ) := do
  let (sid, l) ← varintDecode l
  pure (⟨sid⟩, l)

/-- Modelled from the spec: serializer for the `withdraw` payload. -/
def encWithdrawKind (v : WithdrawKind) : List ℕ :=
  varintEncode v.sessionId ++ varintEncode v.tokenId ++
    varintEncode v.amount

/-- Inverse of `encWithdrawKind`. -/
def decWithdrawKind (l : List ℕ) : Option (WithdrawKind × List ℕ) := do
  let (sid, l) ← varintDecode l
  let (tid, l) ← varintDecode l
  let (amt, l) ← varintDecode l
  pure (⟨sid, tid, amt⟩, l)

/-- Modelled from the spec: serializer for the `placeOrder` payload. -/
def encPlaceOrderKind (v : PlaceOrderKind) : List ℕ :=
  varintEncode v.sessionId ++ encOption varintEncode v.senderAccountId ++
    varintEncode v.marketId ++ encSide v.side ++ encFillMode v.fillMode ++
    encBool v.isReduceOnly ++ varintEncode v.price ++
    varintEncode v.size ++ encU128 v.quoteSize ++
    encOption varintEncode v.clientOrderId ++
    encOption varintEncode v.delegatorAccountId

/-- Inverse of `encPlaceOrderKind`. -/
def decPlaceOrderKind (l : List ℕ) : Option (PlaceOrderKind × List ℕ) := do
  let (sid, l) ← varintDecode l
  let (sender, l) ← decOption varintDecode l
  let (mkt, l) ← varintDecode l
  let (side, l) ← decSide l
  let (fm, l) ← decFillMode l
  let (ro, l) ← decBool l
  let (price, l) ← varintDecode l
  let (size, l) ← varintDecode l
  let (qs, l) ← decU128 l
  let (coid, l) ← decOption varintDecode l
  let (dlg, l) ← decOption varintDecode l
  pure (⟨sid, sender, mkt, side, fm, ro, price, size, qs, coid, dlg⟩, l)

/-- Modelled from the spec: serializer for the `cancelOrderById` payload. -/
def encCancelOrderByIdKind (v : CancelOrderByIdKind) : List ℕ :=
  varintEncode v.orderId ++ varintEncode v.sessionId ++
    encOption varintEncode v.senderAccountId ++
    encOption varintEncode v.delegatorAccountId

/-- Inverse of `encCancelOrderByIdKind`. -/
def decCancelOrderByIdKind (l : List ℕ) :
    Option (CancelOrderByIdKind × List ℕ) := do
  let (oid, l) ← varintDecode l
  let (sid, l) ← varintDecode l
  let (sender, l) ← decOption varintDecode l
  let (dlg, l) ← decOption varintDecode l
  pure (⟨oid, sid, sender, dlg⟩, l)

/-- Modelled from the spec: serializer for the `transfer` payload. -/
def encTransferKind (v : TransferKind) : List ℕ :=
  varintEncode v.sessionId ++ varintEncode v.fromAccountId ++
    encOption varintEncode v.toAccountId ++ varintEncode v.tokenId ++
    varintEncode v.amount

/-- Inverse of `encTransferKind`. -/
def decTransferKind (l : List ℕ) : Option (TransferKind × List ℕ) := do
  let (sid, l) ← varintDecode l
  let (from_, l) ← varintDecode l
  let (to_, l) ← decOption varintDecode l
  let (tid, l) ← varintDecode l
  let (amt, l) ← varintDecode l
  pure (⟨sid, from_, to_, tid, amt⟩, l)

/-- Modelled from the spec: tag-dispatched serializer for the six-way
`Action.kind` union. -/
def encActionKind : ActionKind → List ℕ
  | .createSession v => 0 :: encCreateSessionKind v
  | .revokeSession v => 1 :: encRevokeSessionKind v
  | .withdraw v => 2 :: encWithdrawKind v
  | .placeOrder v => 3 :: encPlaceOrderKind v
  | .cancelOrderById v => 4 :: encCancelOrderByIdKind v
  | .transfer v => 5 :: encTransferKind v

/-- Inverse of `encActionKind`. -/
def decActionKind : List ℕ → Option (ActionKind × List ℕ)
  | 0 :: rest =>
      (decCreateSessionKind rest).map fun p => (.createSession p.1, p.2)
  | 1 :: rest =>
      (decRevokeSessionKind rest).map fun p => (.revokeSession p.1, p.2)
  | 2 :: rest =>
      (decWithdrawKind rest).map fun p => (.withdraw p.1, p.2)
  | 3 :: rest =>
      (decPlaceOrderKind rest).map fun p => (.placeOrder p.1, p.2)
  | 4 :: rest =>
      (decCancelOrderByIdKind rest).map fun p => (.cancelOrderById p.1, p.2)
  | 5 :: rest =>
      (decTransferKind rest).map fun p => (.transfer p.1, p.2)
  | _ => none

/-- Modelled from the spec: the `Action` coder's encode direction
(`proto.Action.encode(message).finish()`). -/
def actionEncode (a : Action) : List ℕ :=
  varintEncode a.currentTimestamp ++ varintEncode a.nonce ++
    encActionKind a.kind

/-- Modelled from the spec: the `Action` coder's decode direction
(`proto.Action.decode`), consuming the whole buffer. -/
def actionDecode (l : List ℕ) : Option Action := do
  let (ts, l) ← varintDecode l
  let (n, l) ← varintDecode l
  let (k, l) ← decActionKind l
  if l = [] then pure ⟨ts, n, k⟩ else none

lemma decActionKind_enc (k : ActionKind) (rest : List ℕ) :
    decActionKind (encActionKind k ++ rest) = some (k, rest) := by
  have hopt := decOption_enc varintEncode varintDecode varintDecode_encode
  cases k with
  | createSession v =>
      obtain ⟨u, b, e⟩ := v
      simp [encActionKind, decActionKind, encCreateSessionKind,
        decCreateSessionKind, List.append_assoc, decBytes_enc,
        varintDecode_encode, bind, Option.bind, pure]
  | revokeSession v =>
      obtain ⟨sid⟩ := v
      simp [encActionKind, decActionKind, encRevokeSessionKind,
        decRevokeSessionKind, varintDecode_encode, bind, Option.bind, pure]
  | withdraw v =>
      obtain ⟨sid, tid, amt⟩ := v
      simp [encActionKind, decActionKind, encWithdrawKind, decWithdrawKind,
        List.append_assoc, varintDecode_encode, bind, Option.bind, pure]
  | placeOrder v =>
      obtain ⟨sid, sender, mkt, side, fm, ro, price, size, qs, coid, dlg⟩ := v
      simp [encActionKind, decActionKind, encPlaceOrderKind,
        decPlaceOrderKind, List.append_assoc, varintDecode_encode, hopt,
        decSide_enc, decFillMode_enc, decBool_enc, decU128_enc, bind,
        Option.bind, pure]
  | cancelOrderById v =>
      obtain ⟨oid, sid, sender, dlg⟩ := v
      simp [encActionKind, decActionKind, encCancelOrderByIdKind,
        decCancelOrderByIdKind, List.append_assoc, varintDecode_encode,
        hopt, bind, Option.bind, pure]
  | transfer v =>
      obtain ⟨sid, from_, to_, tid, amt⟩ := v
      simp [encActionKind, decActionKind, encTransferKind, decTransferKind,
        List.append_assoc, varintDecode_encode, hopt, bind, Option.bind,
        pure]

lemma actionDecode_actionEncode (a : Action) :
    actionDecode (actionEncode a) = some a := by
  obtain ⟨ts, n, k⟩ := a
  have h1 : actionEncode ⟨ts, n, k⟩ =
      varintEncode ts ++ (varintEncode n ++ (encActionKind k ++ [])) := by
    simp [actionEncode]
  have h2 : decActionKind (encActionKind k) = some (k, []) := by
    simpa using decActionKind_enc k []
  rw [h1]
  simp [actionDecode, varintDecode_encode, h2, bind, Option.bind, pure]

/-! ### Length-delimited framing (`src/utils.ts`) -/

/-- `MAX_PAYLOAD_SIZE` from `src/utils.ts`: the 100 KB cap. -/
def MAX_PAYLOAD_SIZE : ℕ := 100 * 1024

/-- The protocol failures raised while framing or unframing wire bytes:
the two explicit throws of `encodeLengthDelimited`/`decodeLengthDelimited`,
plus the reader throwing inside a truncated varint and the schema coder
rejecting the sliced payload. -/
inductive ProtoError
  | oversize
  | truncated
  | varintReadFailed
  | decodeFailed
deriving DecidableEq

/-- Shallow embedding of `encodeLengthDelimited` from `src/utils.ts`
(lines 220-232), generic in the schema coder as in the source: serialize,
reject payloads above the cap, and prepend the varint length prefix. -/
def encodeLengthDelimited {T : Type} (encT : T → List ℕ) (message : T) :
    Except ProtoError (List ℕ) :=
  let encoded := encT message
  if encoded.length > MAX_PAYLOAD_SIZE then .error .oversize
  else .ok (varintEncode encoded.length ++ encoded)

/-- Shallow embedding of `decodeLengthDelimited` from `src/utils.ts`
(lines 249-270), generic in the schema coder as in the source: read the
varint length prefix, reject lengths above the cap, reject lengths past the
end of the buffer, and deserialize exactly the declared slice. -/
def decodeLengthDelimited {T : Type} (decT : List ℕ → Option T)
    (bytes : List ℕ) : Except ProtoError T :=
  match varintDecode bytes with
  | none => .error .varintReadFailed
  | some (msgLength, rest) =>
      if msgLength > MAX_PAYLOAD_SIZE then .error .oversize
      else if msgLength > rest.length then .error .truncated
      else
        match decT (rest.take msgLength) with
        | some m => .ok m
        | none => .error .decodeFailed

/-- Claim C5: every action whose length-delimited encoding succeeds is
recovered structurally intact by length-delimited decoding; the
quantification over all `Action` values covers each of the six variants
with optional fields both present and absent. -/
theorem encode_decode_roundtrip (a : Action) (bytes : List ℕ)
    (h : encodeLengthDelimited actionEncode a = .ok bytes) :
    decodeLengthDelimited actionDecode bytes = .ok a := by
  unfold encodeLengthDelimited at h
  by_cases hlen : (actionEncode a).length > MAX_PAYLOAD_SIZE
  · simp [hlen] at h
  · simp only [hlen, if_false] at h
    have hbytes : bytes =
        varintEncode (actionEncode a).length ++ actionEncode a :=
      (Except.ok.inj h).symm
    subst hbytes
    simp [decodeLengthDelimited, varintDecode_encode, hlen,
      actionDecode_actionEncode a, List.take_length]

/-- Witness for C5 at a concrete action: a `RevokeSession` action encodes to
an explicit byte string and decodes back to itself. -/
theorem encode_decode_roundtrip_witness :
    encodeLengthDelimited actionEncode
        ⟨0, 0, .revokeSession ⟨0⟩⟩ = .ok [4, 0, 0, 1, 0]
    ∧ decodeLengthDelimited actionDecode [4, 0, 0, 1, 0] =
        .ok ⟨0, 0, .revokeSession ⟨0⟩⟩ := by
  have h : encodeLengthDelimited actionEncode ⟨0, 0, .revokeSession ⟨0⟩⟩ =
      .ok [4, 0, 0, 1, 0] := by decide
  exact ⟨h, encode_decode_roundtrip _ _ h⟩

/-- Claim C6: encoding fails with the oversize error exactly when the
serialized payload exceeds the 100 KB cap (and otherwise returns the
varint-prefixed payload); decoding fails with the oversize error when the
declared varint length exceeds the cap, fails with the truncated error when
the declared length exceeds the remaining buffer, and otherwise decodes
exactly the declared slice through the schema coder, unaffected by any
trailing bytes. -/
theorem framing_limits {T : Type} (encT : T → List ℕ)
    (decT : List ℕ → Option T) (msg : T) (bytes junk : List ℕ)
    (len : ℕ) (rest : List ℕ) :
    (encodeLengthDelimited encT msg = .error .oversize ↔
      (encT msg).length > MAX_PAYLOAD_SIZE)
  ∧ ((encT msg).length ≤ MAX_PAYLOAD_SIZE →
      encodeLengthDelimited encT msg =
        .ok (varintEncode (encT msg).length ++ encT msg))
  ∧ (varintDecode bytes = some (len, rest) →
      (len > MAX_PAYLOAD_SIZE →
        decodeLengthDelimited decT bytes = .error .oversize)
      ∧ (len ≤ MAX_PAYLOAD_SIZE → rest.length < len →
        decodeLengthDelimited decT bytes = .error .truncated)
      ∧ (len ≤ MAX_PAYLOAD_SIZE → len ≤ rest.length →
        decodeLengthDelimited decT bytes =
          (match decT (rest.take len) with
           | some m => .ok m
           | none => .error .decodeFailed)
        ∧ decodeLengthDelimited decT (bytes ++ junk) =
            decodeLengthDelimited decT bytes)) := by
  refine ⟨?_, ?_, ?_⟩
  · constructor
    · intro h
      by_cases hl : (encT msg).length > MAX_PAYLOAD_SIZE
      · exact hl
      · simp [encodeLengthDelimited, hl] at h
    · intro hl
      simp [encodeLengthDelimited, hl]
  · intro hle
    simp [encodeLengthDelimited, not_lt.mpr hle]
  · intro hdec
    refine ⟨?_, ?_, ?_⟩
    · intro hbig
      simp [decodeLengthDelimited, hdec, hbig]
    · intro hle htr
      simp [decodeLengthDelimited, hdec, not_lt.mpr hle, htr]
    · intro hle hfit
      have hdec2 := varintDecode_append bytes junk len rest hdec
      have htake : (rest ++ junk).take len = rest.take len := by
        rw [List.take_append_eq_append_take]
        simp [Nat.sub_eq_zero_of_le hfit]
      have hfit2 : len ≤ (rest ++ junk).length := by
        simp only [List.length_append]
        omega
      constructor
      · simp [decodeLengthDelimited, hdec, not_lt.mpr hle,
          not_lt.mpr hfit]
      · have hfit3 : ¬ rest.length + junk.length < len := by omega
        simp [decodeLengthDelimited, hdec, hdec2, not_lt.mpr hle,
          not_lt.mpr hfit, not_lt.mpr hfit2, hfit3, htake]

/-- Witness for C6 at concrete buffers: a declared length of 102401 (above
the cap) is rejected as oversize, a declared length of 5 with only two
remaining bytes is rejected as truncated, and appending a trailing byte to
a well-formed buffer leaves the decoded result unchanged. -/
theorem framing_limits_witness :
    decodeLengthDelimited (fun l => some l) [129, 160, 6] =
      .error .oversize
    ∧ decodeLengthDelimited (fun l => some l) [5, 1, 2] =
      .error .truncated
    ∧ decodeLengthDelimited (fun l => some l) ([3, 7, 8, 9] ++ [5]) =
      decodeLengthDelimited (fun l => some l) [3, 7, 8, 9] :=
  ⟨((framing_limits (fun l : List ℕ => l) (fun l => some l) []
      [129, 160, 6] [] 102401 []).2.2 (by decide)).1 (by decide),
   (((framing_limits (fun l : List ℕ => l) (fun l => some l) []
      [5, 1, 2] [] 5 [1, 2]).2.2 (by decide)).2.1 (by decide) (by decide)),
   (((framing_limits (fun l : List ℕ => l) (fun l => some l) []
      [3, 7, 8, 9] [5] 3 [7, 8, 9]).2.2 (by decide)).2.2 (by decide)
      (by decide)).2⟩

end Nord
